import Mathlib

/-!
Shallow embedding of the agentic tool-use orchestration loop of the
mcp_sqlite3 repository: `Chat.process_query` in `app.py`,
`SQLiteAssistantApp.process_query` in `mcp_client.py`, the `query_data`
tool in `mcp_server.py`, and the `/chat` endpoint `chat_api` in `app.py`.

External collaborators (the Anthropic messages API and the MCP tool
session) are modelled as oracles: a script of model responses consumed
round by round, and a function giving each tool invocation's outcome.
-/

namespace McpSqlite

/-- A tool_use content block: id, tool name and structured input
(arguments modelled as an association list). -/
structure ToolUse where
  id : String
  name : String
  input : List (String × String)
deriving DecidableEq

/-- A content item of a model response: a text block or a tool_use block
(`content.type == "text"` / `"tool_use"` in the source). -/
inductive ContentItem where
  | text (s : String)
  | toolUse (tu : ToolUse)
deriving DecidableEq

/-- One tool_result entry: `\x7b"tool_use_id": ..., "content": ...\x7d`. -/
structure ToolResult where
  tool_use_id : String
  content : String
deriving DecidableEq

/-- A transcript message (`MessageParam`): a user text message, an
assistant message with content items, or a user message whose content is
a list of tool_result blocks. -/
inductive Message where
  | user (text : String)
  | assistant (items : List ContentItem)
  | toolResults (results : List ToolResult)
deriving DecidableEq

/-- Record of one invocation made on the MCP session
(`session.call_tool(name, input)`). -/
structure ToolCall where
  name : String
  args : List (String × String)
deriving DecidableEq

/-- One item of a tool result payload; `text?` is `some t` when the item
has a `text` attribute (TextContent), `none` otherwise. -/
structure ToolPayloadItem where
  text? : Option String
deriving DecidableEq

/-- The payload returned by a successful `session.call_tool`:
`result.content` is a list of content items. -/
structure ToolPayload where
  content : List ToolPayloadItem
deriving DecidableEq

/-- Outcome of one `session.call_tool` invocation: a returned payload, or
a raised exception carrying a message. -/
inductive ToolOutcome where
  | ok (payload : ToolPayload)
  | raise (e : String)
deriving DecidableEq

/-- A tool descriptor as returned by `session.list_tools()`. -/
structure ToolDescriptor where
  name : String
  descr : Option String
  inputSchema : String

/-- The schema format sent to the model (one `available_tools` entry,
app.py lines 44-51): the descriptor with `description or ""`. -/
structure ToolParam where
  name : String
  descr : String
  input_schema : String

/-- The conversion of one catalog entry into the model schema format
(app.py lines 45-49). -/
def toToolParam (t : ToolDescriptor) : ToolParam :=
  { name := t.name, descr := t.descr.getD "", input_schema := t.inputSchema }

/-- Mutable state of one `process_query` run: the messages list, the
`final_response` accumulator, and instrumentation recording how many model
calls were attempted and which tool invocations were made, in order. -/
structure LoopState where
  msgs : List Message
  final : String
  modelCalls : Nat
  toolTrace : List ToolCall
deriving DecidableEq

/-- Result of the orchestration loop: normal termination (the `break` at
app.py line 87), or a raised exception propagating to the outer handler. -/
inductive Outcome where
  | done (s : LoopState)
  | raised (e : String) (s : LoopState)
deriving DecidableEq

/-- The oracle environment of one run: the result of `session.list_tools()`
(`.error` when it raises), the tool session behaviour, and the script of
model responses (a `none` entry models a raising `messages.create` call;
an exhausted script likewise models a model-service failure). -/
structure Env where
  listTools : Except String (List ToolDescriptor)
  callTool : String → List (String × String) → ToolOutcome
  script : List (Option (List ContentItem))

/-- Python str.strip() whitespace set. -/
def isPySpace (c : Char) : Bool :=
  c == ' ' || c == '\t' || c == '\n' || c == '\r' || c == '\x0b' || c == '\x0c'

/-- Python `s.strip()`: remove leading and trailing whitespace. -/
def pyStrip (s : String) : String :=
  ⟨((s.data.dropWhile isPySpace).reverse.dropWhile isPySpace).reverse⟩

/-- The for-loop over `res.content` (app.py lines 71-78, mcp_client.py
lines 195-207): collect the text blocks and the tool_use blocks, each in
encounter order. -/
def collectContent : List ContentItem → List String × List ToolUse
  | [] => ([], [])
  | .text s :: rest =>
      let p := collectContent rest
      (s :: p.1, p.2)
  | .toolUse tu :: rest =>
      let p := collectContent rest
      (p.1, tu :: p.2)

/-- The `final_response += content.text + "\n"` accumulation (app.py
line 75), applied to each text fragment in order. -/
def accumFinal : String → List String → String
  | final, [] => final
  | final, t :: ts => accumFinal (final ++ t ++ "\n") ts

/-- Content of the assistant turn appended in app.py (lines 80-83):
`assistant_message_content + tool_uses`, i.e. all text items first, then
all tool_use items. -/
def appAssistantContent (items : List ContentItem) : List ContentItem :=
  (collectContent items).1.map ContentItem.text
    ++ (collectContent items).2.map ContentItem.toolUse

/-- Content of the assistant turn appended in mcp_client.py (lines
195-207): every item re-emitted in encounter order. -/
def mcpAssistantContent : List ContentItem → List ContentItem
  | [] => []
  | .text s :: rest => .text s :: mcpAssistantContent rest
  | .toolUse tu :: rest => .toolUse tu :: mcpAssistantContent rest

/-- The tool-dispatch loop of app.py (lines 89-101): invoke each requested
tool in order; extract `getattr(result.content[0], "text", "")`; append one
tool_result user message per result. An exception from `call_tool`, or the
IndexError from `result.content[0]` on an empty payload, propagates — there
is no per-tool handler in app.py. -/
def appToolLoop (call : String → List (String × String) → ToolOutcome) :
    List ToolUse → LoopState → Except (String × LoopState) LoopState
  | [], s => .ok s
  | tu :: rest, s =>
      let s1 : LoopState := { s with toolTrace := s.toolTrace ++ [⟨tu.name, tu.input⟩] }
      match call tu.name tu.input with
      | .raise e => .error (e, s1)
      | .ok payload =>
          match payload.content with
          | [] => .error ("IndexError: list index out of range", s1)
          | item :: _ =>
              appToolLoop call rest
                { s1 with msgs := s1.msgs ++ [Message.toolResults [⟨tu.id, item.text?.getD ""⟩]] }

/-- The `while True` loop of app.py (lines 57-101), driven by the response
script: each round sends the messages to the model, walks the content
(collecting text into `final_response` and tool_use blocks aside), appends
the assistant turn, breaks when no tool_use was requested, and otherwise
dispatches the tools and loops. -/
def appLoop (call : String → List (String × String) → ToolOutcome) :
    List (Option (List ContentItem)) → LoopState → Outcome
  | [], s => .raised "ModelServiceError" { s with modelCalls := s.modelCalls + 1 }
  | none :: _, s => .raised "ModelServiceError" { s with modelCalls := s.modelCalls + 1 }
  | some items :: rest, s =>
      let p := collectContent items
      let s1 : LoopState :=
        { s with
          modelCalls := s.modelCalls + 1,
          final := accumFinal s.final p.1,
          msgs := s.msgs ++ [Message.assistant (appAssistantContent items)] }
      if p.2.isEmpty then .done s1
      else
        match appToolLoop call p.2 s1 with
        | .error es => .raised es.1 es.2
        | .ok s2 => appLoop call rest s2

/-- Chat.process_query (app.py lines 40-107): fetch the tool catalog,
append the user turn, run the loop, return `final_response.strip()`; any
exception is caught by the outer handler, which returns an error string.
The returned `LoopState` exposes the final value of `self.messages` and
the instrumentation counters. If `list_tools` raises, nothing has been
appended yet, so `self.messages` is returned unchanged. -/
def Chat.process_query (env : Env) (msgs0 : List Message) (query : String) :
    String × LoopState :=
  match env.listTools with
  | .error e => ("❌ Error during Claude + MCP query: " ++ e, ⟨msgs0, "", 0, []⟩)
  | .ok _tools =>
      match appLoop env.callTool env.script ⟨msgs0 ++ [Message.user query], "", 0, []⟩ with
      | .done s => (pyStrip s.final, s)
      | .raised e s => ("❌ Error during Claude + MCP query: " ++ e, s)

/-- The `result_text.strip().replace(chr(0), "")` cleaning of
mcp_client.py line 226: strip, then drop every NUL character (replacing a
one-character pattern by the empty string is exactly a filter). -/
def clean (s : String) : String :=
  ⟨(pyStrip s).data.filter (fun c => c != '\x00')⟩

/-- The tool-dispatch loop of mcp_client.py (lines 217-249): each request
is invoked in order inside a per-tool try/except; on an exception (from
the call, or from indexing an empty payload) the failing tool contributes
no result and the loop continues; on success the cleaned text is appended
to `tool_results`. Returns the updated invocation trace and the batch. -/
def mcpToolLoop (call : String → List (String × String) → ToolOutcome) :
    List ToolUse → List ToolCall → List ToolResult → List ToolCall × List ToolResult
  | [], tr, res => (tr, res)
  | tu :: rest, tr, res =>
      let tr1 := tr ++ [⟨tu.name, tu.input⟩]
      match call tu.name tu.input with
      | .raise _ => mcpToolLoop call rest tr1 res
      | .ok payload =>
          match payload.content with
          | [] => mcpToolLoop call rest tr1 res
          | item :: _ => mcpToolLoop call rest tr1 (res ++ [⟨tu.id, clean (item.text?.getD "")⟩])

/-- The `while True` loop of mcp_client.py (lines 183-254): as app.py's,
except that the assistant turn preserves the original item order and all
of a round's tool results are appended as one user message. Returns
`none` when the model call fails (outer except swallows it). -/
def mcpLoop (call : String → List (String × String) → ToolOutcome) :
    List (Option (List ContentItem)) → LoopState → Option LoopState
  | [], _ => none
  | none :: _, _ => none
  | some items :: rest, s =>
      let p := collectContent items
      let s1 : LoopState :=
        { s with
          modelCalls := s.modelCalls + 1,
          msgs := s.msgs ++ [Message.assistant (mcpAssistantContent items)] }
      if p.2.isEmpty then some s1
      else
        let pr := mcpToolLoop call p.2 s1.toolTrace []
        mcpLoop call rest
          { s1 with toolTrace := pr.1, msgs := s1.msgs ++ [Message.toolResults pr.2] }

/-- Result of the `/chat` endpoint: the `response` field plus
instrumentation (model calls attempted, tool invocations made). -/
structure ApiResult where
  response : String
  modelCalls : Nat
  toolCalls : List ToolCall
deriving DecidableEq

/-- chat_api (app.py lines 134-143) acting on the module-level `chat`
singleton (created once, app.py line 109): given the current persistent
`chat.messages` state, either run `process_query` (session present) or
fall back to an echo response. Returns the endpoint response and the new
persistent state of `chat.messages`. -/
def chat_api (env : Env) (hasSession : Bool) (chatMessages : List Message)
    (message : String) : ApiResult × List Message :=
  match hasSession with
  | true =>
      let r := Chat.process_query env chatMessages message
      (⟨r.1, r.2.modelCalls, r.2.toolTrace⟩, r.2.msgs)
  | false => (⟨"[Fallback] Echo: " ++ message, 0, []⟩, chatMessages)

/-- Outcome of the execute/fetchall/commit sequence on one SQL string:
the fetched rows (each already rendered by `str(row)`), or a raised
exception message. -/
inductive SqlOutcome where
  | rows (rs : List String)
  | fail (e : String)

/-- The database environment of the query_data tool: whether
`sqlite3.connect("database.db")` succeeds, and what running a given SQL
string does. -/
structure DbEnv where
  connect : Except String Unit
  run : String → SqlOutcome

/-- query_data (mcp_server.py lines 16-32). When `connect` succeeds the
try/except returns a string in every case. When `connect` raises, the
`except` clause computes the error-string return value, but the `finally`
clause then evaluates `conn.close()` with `conn` never having been
assigned, raising UnboundLocalError, which replaces the pending return —
so the call propagates an exception (modelled as `.error`). -/
def query_data (env : DbEnv) (sql : String) : Except String String :=
  match env.connect with
  | .error _ =>
      .error "UnboundLocalError: local variable conn referenced before assignment"
  | .ok _ =>
      match env.run sql with
      | .rows [] => .ok "✅ Query ran successfully."
      | .rows (r :: rs) => .ok (String.intercalate "\n" (r :: rs))
      | .fail e => .ok ("❌ SQL Error: " ++ e)

/-- Text fragments joined with a trailing newline each, the shape of the
`final_response` accumulator. -/
def joinNl : List String → String
  | [] => ""
  | t :: ts => t ++ "\n" ++ joinNl ts

/-- All text fragments of a sequence of rounds, in order. -/
def allTexts : List (List ContentItem) → List String
  | [] => []
  | r :: rs => (collectContent r).1 ++ allTexts rs

/-- Every invocation in the request list succeeds and returns a payload
with at least one content item. -/
def dispatchOk (call : String → List (String × String) → ToolOutcome) :
    List ToolUse → Bool
  | [] => true
  | tu :: rest =>
      (match call tu.name tu.input with
       | .ok payload => !payload.content.isEmpty
       | .raise _ => false) && dispatchOk call rest

/-- The text app.py extracts for one request:
`getattr(result.content[0], "text", "")`, with `""` standing in for the
error cases that cannot arise under `dispatchOk`. -/
def appResultText (call : String → List (String × String) → ToolOutcome)
    (tu : ToolUse) : String :=
  match call tu.name tu.input with
  | .ok payload =>
      match payload.content with
      | [] => ""
      | item :: _ => item.text?.getD ""
  | .raise _ => ""

/-- Whether a content item is a text block. -/
def ContentItem.isText : ContentItem → Bool
  | .text _ => true
  | .toolUse _ => false

/-- The state carried by either loop outcome. -/
def outcomeState : Outcome → LoopState
  | .done s => s
  | .raised _ s => s

/-- The state carried by either dispatch result. -/
def dispatchState : Except (String × LoopState) LoopState → LoopState
  | .ok s => s
  | .error es => es.2

/-! ### Concrete sample inputs, used in closed counterexamples and witnesses -/

/-- A sample tool request. -/
def sampleTu1 : ToolUse := ⟨"t1", "query_data", [("sql", "SELECT 1")]⟩

/-- A second sample tool request. -/
def sampleTu2 : ToolUse := ⟨"t2", "query_data", [("sql", "SELECT 2")]⟩

/-- A session whose every invocation succeeds with one text item `"42"`. -/
def okCall42 : String → List (String × String) → ToolOutcome :=
  fun _ _ => ToolOutcome.ok ⟨[⟨some "42"⟩]⟩

/-- A session whose every invocation raises. -/
def raiseCallBoom : String → List (String × String) → ToolOutcome :=
  fun _ _ => ToolOutcome.raise "boom"

/-- A session whose every invocation returns an empty payload. -/
def emptyPayloadCall : String → List (String × String) → ToolOutcome :=
  fun _ _ => ToolOutcome.ok ⟨[]⟩

/-- A session whose every invocation returns one item without a text
attribute. -/
def noTextCall : String → List (String × String) → ToolOutcome :=
  fun _ _ => ToolOutcome.ok ⟨[⟨none⟩]⟩

/-- Environment: the model requests one tool (whose invocation raises),
then would answer with text. -/
def envRaise : Env :=
  ⟨Except.ok [], raiseCallBoom,
   [some [ContentItem.toolUse sampleTu1], some [ContentItem.text "after"]]⟩

/-- Environment: the model requests one tool (whose result payload is
empty), then would answer with text. -/
def envEmptyPayload : Env :=
  ⟨Except.ok [], emptyPayloadCall,
   [some [ContentItem.toolUse sampleTu1], some [ContentItem.text "done"]]⟩

/-- Environment: the model answers with text only, in a single round. -/
def envTextOnly : Env :=
  ⟨Except.ok [], emptyPayloadCall, [some [ContentItem.text "a"]]⟩

/-- A model response whose tool_use block precedes its text block. -/
def c4Items : List ContentItem := [ContentItem.toolUse sampleTu1, ContentItem.text "hi"]

/-- A round with a text fragment and a tool request. -/
def w1Round : List ContentItem := [ContentItem.text "a", ContentItem.toolUse sampleTu1]

/-- A final round with a text fragment and no tool request. -/
def w1Last : List ContentItem := [ContentItem.text "b"]

/-! ## Helper lemmas -/

theorem joinNl_append (a b : List String) : joinNl (a ++ b) = joinNl a ++ joinNl b := by
  induction a with
  | nil => simp [joinNl]
  | cons t ts ih => simp [joinNl, ih, String.append_assoc]

theorem accumFinal_eq (f : String) (ts : List String) : accumFinal f ts = f ++ joinNl ts := by
  induction ts generalizing f with
  | nil => simp [accumFinal, joinNl]
  | cons t ts ih => simp [accumFinal, joinNl, ih, String.append_assoc]

/-- Under `dispatchOk`, app.py's dispatch loop succeeds, appending one
tool_result message per request (in request order, ids matching) and
recording one invocation per request, in request order. -/
theorem appToolLoop_ok (call : String → List (String × String) → ToolOutcome)
    (tus : List ToolUse) (s : LoopState) (h : dispatchOk call tus = true) :
    appToolLoop call tus s = .ok
      { s with
        msgs := s.msgs ++ tus.map (fun tu => Message.toolResults [⟨tu.id, appResultText call tu⟩]),
        toolTrace := s.toolTrace ++ tus.map (fun tu => (⟨tu.name, tu.input⟩ : ToolCall)) } := by
  induction tus generalizing s with
  | nil => simp [appToolLoop]
  | cons tu rest ih =>
      rw [dispatchOk] at h
      cases hc : call tu.name tu.input with
      | raise e => rw [hc] at h; simp at h
      | ok payload =>
          rw [hc] at h
          simp only [Bool.and_eq_true] at h
          obtain ⟨h1, h2⟩ := h
          cases hp : payload.content with
          | nil => rw [hp] at h1; simp [List.isEmpty] at h1
          | cons item restItems =>
              simp [appToolLoop, hc, hp, ih _ h2, appResultText, List.append_assoc]

/-- Under `dispatchOk`, mcp_client.py's dispatch loop records one invocation
per request in request order and collects one cleaned result per request, in
request order, with matching ids. -/
theorem mcpToolLoop_ok (call : String → List (String × String) → ToolOutcome)
    (tus : List ToolUse) (tr : List ToolCall) (res : List ToolResult)
    (h : dispatchOk call tus = true) :
    mcpToolLoop call tus tr res =
      (tr ++ tus.map (fun tu => (⟨tu.name, tu.input⟩ : ToolCall)),
       res ++ tus.map (fun tu => (⟨tu.id, clean (appResultText call tu)⟩ : ToolResult))) := by
  induction tus generalizing tr res with
  | nil => simp [mcpToolLoop]
  | cons tu rest ih =>
      rw [dispatchOk] at h
      cases hc : call tu.name tu.input with
      | raise e => rw [hc] at h; simp at h
      | ok payload =>
          rw [hc] at h
          simp only [Bool.and_eq_true] at h
          obtain ⟨h1, h2⟩ := h
          cases hp : payload.content with
          | nil => rw [hp] at h1; simp [List.isEmpty] at h1
          | cons item restItems =>
              simp [mcpToolLoop, hc, hp, ih _ _ h2, appResultText, List.append_assoc]

theorem collectContent_fst_filter (items : List ContentItem) :
    (collectContent items).1.map ContentItem.text = items.filter ContentItem.isText := by
  induction items with
  | nil => simp [collectContent]
  | cons i rest ih =>
      cases i with
      | text s => simp [collectContent, List.filter, ContentItem.isText, ih]
      | toolUse tu => simp [collectContent, List.filter, ContentItem.isText, ih]

theorem collectContent_snd_filter (items : List ContentItem) :
    (collectContent items).2.map ContentItem.toolUse
      = items.filter (fun i => ! ContentItem.isText i) := by
  induction items with
  | nil => simp [collectContent]
  | cons i rest ih =>
      cases i with
      | text s => simp [collectContent, List.filter, ContentItem.isText, ih]
      | toolUse tu => simp [collectContent, List.filter, ContentItem.isText, ih]

/-- app.py's dispatch loop only ever appends to the messages list, whether
it succeeds or raises. -/
theorem appToolLoop_msgs_mono (call : String → List (String × String) → ToolOutcome)
    (tus : List ToolUse) (s : LoopState) :
    ∃ t, (dispatchState (appToolLoop call tus s)).msgs = s.msgs ++ t := by
  induction tus generalizing s with
  | nil => exact ⟨[], by simp [appToolLoop, dispatchState]⟩
  | cons tu rest ih =>
      cases hc : call tu.name tu.input with
      | raise e => exact ⟨[], by simp [appToolLoop, hc, dispatchState]⟩
      | ok payload =>
          cases hp : payload.content with
          | nil => exact ⟨[], by simp [appToolLoop, hc, hp, dispatchState]⟩
          | cons item restItems =>
              obtain ⟨t, ht⟩ := ih
                { s with
                  toolTrace := s.toolTrace ++ [⟨tu.name, tu.input⟩],
                  msgs := s.msgs ++ [Message.toolResults [⟨tu.id, item.text?.getD ""⟩]] }
              refine ⟨Message.toolResults [⟨tu.id, item.text?.getD ""⟩] :: t, ?_⟩
              have hstep : appToolLoop call (tu :: rest) s = appToolLoop call rest
                  { s with
                    toolTrace := s.toolTrace ++ [⟨tu.name, tu.input⟩],
                    msgs := s.msgs ++ [Message.toolResults [⟨tu.id, item.text?.getD ""⟩]] } := by
                simp [appToolLoop, hc, hp]
              rw [hstep, ht]
              simp

/-- app.py's round loop only ever appends to the messages list, whether it
terminates normally or raises. -/
theorem appLoop_msgs_mono (call : String → List (String × String) → ToolOutcome)
    (script : List (Option (List ContentItem))) (s : LoopState) :
    ∃ t, (outcomeState (appLoop call script s)).msgs = s.msgs ++ t := by
  induction script generalizing s with
  | nil => exact ⟨[], by simp [appLoop, outcomeState]⟩
  | cons entry rest ih =>
      cases entry with
      | none => exact ⟨[], by simp [appLoop, outcomeState]⟩
      | some items =>
          by_cases hemp : (collectContent items).2.isEmpty = true
          · exact ⟨[Message.assistant (appAssistantContent items)], by simp [appLoop, hemp, outcomeState]⟩
          · have hemp' : (collectContent items).2.isEmpty = false := by
              cases h : (collectContent items).2.isEmpty
              · rfl
              · exact absurd h hemp
            set s1 : LoopState :=
              { s with
                modelCalls := s.modelCalls + 1,
                final := accumFinal s.final (collectContent items).1,
                msgs := s.msgs ++ [Message.assistant (appAssistantContent items)] } with hs1
            obtain ⟨t0, ht0⟩ := appToolLoop_msgs_mono call (collectContent items).2 s1
            cases hd : appToolLoop call (collectContent items).2 s1 with
            | error es =>
                refine ⟨Message.assistant (appAssistantContent items) :: t0, ?_⟩
                have : es.2.msgs = s1.msgs ++ t0 := by rw [hd] at ht0; simpa [dispatchState] using ht0
                simp [appLoop, hemp', hd, outcomeState, this, hs1]
            | ok s2 =>
                have hm2 : s2.msgs = s1.msgs ++ t0 := by rw [hd] at ht0; simpa [dispatchState] using ht0
                obtain ⟨t1, ht1⟩ := ih s2
                refine ⟨Message.assistant (appAssistantContent items) :: (t0 ++ t1), ?_⟩
                have hstep : appLoop call (some items :: rest) s = appLoop call rest s2 := by
                  simp [appLoop, hemp', hd]
                rw [hstep, ht1, hm2]
                simp [hs1]

/-- Chat.process_query only ever appends to `self.messages`: the returned
messages state extends the incoming one. -/
theorem process_query_msgs_mono (env : Env) (msgs0 : List Message) (query : String) :
    ∃ t, (Chat.process_query env msgs0 query).2.msgs = msgs0 ++ t := by
  cases henv : env.listTools with
  | error e => exact ⟨[], by simp [Chat.process_query, henv]⟩
  | ok tools =>
      obtain ⟨t, ht⟩ := appLoop_msgs_mono env.callTool env.script
        ⟨msgs0 ++ [Message.user query], "", 0, []⟩
      refine ⟨Message.user query :: t, ?_⟩
      cases hl : appLoop env.callTool env.script ⟨msgs0 ++ [Message.user query], "", 0, []⟩ with
      | done s => rw [hl] at ht; simp [Chat.process_query, henv, hl]; simpa [outcomeState] using ht
      | raised e s => rw [hl] at ht; simp [Chat.process_query, henv, hl]; simpa [outcomeState] using ht

/-- Running app.py's loop over rounds that each request tools (all
dispatches succeeding) followed by a tool-free round terminates at that
round, with `final_response` extended by exactly the newline-joined text
fragments of all rounds in order, and one model call per round. -/
theorem appLoop_run (call : String → List (String × String) → ToolOutcome)
    (rounds : List (List ContentItem)) (last : List ContentItem)
    (rest : List (Option (List ContentItem))) (s : LoopState)
    (hlast : (collectContent last).2 = [])
    (hpre : ∀ r ∈ rounds, (collectContent r).2 ≠ [] ∧ dispatchOk call (collectContent r).2 = true) :
    ∃ s2, appLoop call (rounds.map some ++ some last :: rest) s = .done s2
      ∧ s2.final = s.final ++ joinNl (allTexts (rounds ++ [last]))
      ∧ s2.modelCalls = s.modelCalls + rounds.length + 1 := by
  induction rounds generalizing s with
  | nil =>
      have hemp : (collectContent last).2.isEmpty = true := by simp [hlast]
      refine ⟨{ s with
          modelCalls := s.modelCalls + 1,
          final := accumFinal s.final (collectContent last).1,
          msgs := s.msgs ++ [Message.assistant (appAssistantContent last)] }, ?_, ?_, ?_⟩
      · simp [appLoop, hemp]
      · simp [accumFinal_eq, allTexts]
      · simp
  | cons r rounds ih =>
      obtain ⟨hne, hok⟩ := hpre r (List.mem_cons_self r rounds)
      have hemp : (collectContent r).2.isEmpty = false := by
        cases h : (collectContent r).2 with
        | nil => exact absurd h hne
        | cons a l => simp [List.isEmpty]
      set s1 : LoopState :=
        { s with
          modelCalls := s.modelCalls + 1,
          final := accumFinal s.final (collectContent r).1,
          msgs := s.msgs ++ [Message.assistant (appAssistantContent r)] } with hs1
      have hd := appToolLoop_ok call (collectContent r).2 s1 hok
      obtain ⟨s3, h1, h2, h3⟩ := ih
        { s1 with
          msgs := s1.msgs ++ (collectContent r).2.map
            (fun tu => Message.toolResults [⟨tu.id, appResultText call tu⟩]),
          toolTrace := s1.toolTrace ++ (collectContent r).2.map
            (fun tu => (⟨tu.name, tu.input⟩ : ToolCall)) }
        (fun r hr => hpre r (List.mem_cons_of_mem _ hr))
      refine ⟨s3, ?_, ?_, ?_⟩
      · have hstep : appLoop call ((r :: rounds).map some ++ some last :: rest) s
            = appLoop call (rounds.map some ++ some last :: rest)
              { s1 with
                msgs := s1.msgs ++ (collectContent r).2.map
                  (fun tu => Message.toolResults [⟨tu.id, appResultText call tu⟩]),
                toolTrace := s1.toolTrace ++ (collectContent r).2.map
                  (fun tu => (⟨tu.name, tu.input⟩ : ToolCall)) } := by
          simp [appLoop, hemp, hd]
        rw [hstep]; exact h1
      · rw [h2]
        simp [hs1, accumFinal_eq, allTexts, joinNl_append, String.append_assoc]
      · rw [h3]
        simp [hs1]
        omega

/-! ## Claim theorems -/

/-- C1: for every orchestration run, if a round's model response contains
zero ToolInvocationRequest items, the loop terminates after that round
(the remaining script `rest` is never consumed) and returns as the final
answer the concatenation of every Text item's content from that round and
all prior rounds, in order, each fragment followed by a newline, with the
whole result trimmed of leading and trailing whitespace; exactly one model
call is made per round. -/
theorem c1_no_tool_round_terminates_with_joined_texts
    (call : String → List (String × String) → ToolOutcome) (tools : List ToolDescriptor)
    (rounds : List (List ContentItem)) (last : List ContentItem)
    (rest : List (Option (List ContentItem))) (msgs0 : List Message) (query : String)
    (hlast : (collectContent last).2 = [])
    (hpre : ∀ r ∈ rounds, (collectContent r).2 ≠ []
              ∧ dispatchOk call (collectContent r).2 = true) :
    (Chat.process_query ⟨Except.ok tools, call, rounds.map some ++ some last :: rest⟩
        msgs0 query).1
      = pyStrip (joinNl (allTexts (rounds ++ [last])))
    ∧ (Chat.process_query ⟨Except.ok tools, call, rounds.map some ++ some last :: rest⟩
        msgs0 query).2.modelCalls = rounds.length + 1 := by
  obtain ⟨s2, h1, h2, h3⟩ := appLoop_run call rounds last rest
    ⟨msgs0 ++ [Message.user query], "", 0, []⟩ hlast hpre
  constructor
  · simp [Chat.process_query, h1, h2, String.empty_append]
  · simp [Chat.process_query, h1, h3]

/-- Witness for C1 at a concrete input: one round that requests a tool
(successfully dispatched) followed by a text-only round. -/
theorem c1_witness :
    ((collectContent w1Last).2 = []
      ∧ ∀ r ∈ [w1Round], (collectContent r).2 ≠ []
          ∧ dispatchOk okCall42 (collectContent r).2 = true)
    ∧ ((Chat.process_query ⟨Except.ok [], okCall42, [w1Round].map some ++ some w1Last :: []⟩
          [] "q").1
        = pyStrip (joinNl (allTexts ([w1Round] ++ [w1Last])))
      ∧ (Chat.process_query ⟨Except.ok [], okCall42, [w1Round].map some ++ some w1Last :: []⟩
          [] "q").2.modelCalls = [w1Round].length + 1) :=
  ⟨⟨by decide, by decide⟩,
   c1_no_tool_round_terminates_with_joined_texts okCall42 [] [w1Round] w1Last [] [] "q"
     (by decide) (by decide)⟩

/-- C2: for every ordered sequence of tool requests of one round whose
invocations all succeed, both dispatch loops invoke the session exactly
once per request, strictly in the given order (the invocation trace is the
request list mapped to (name, arguments)), and the resulting tool_results
carry the id of the request they answer, in the same order as the
requests. -/
theorem c2_dispatch_order_and_matching_ids
    (call : String → List (String × String) → ToolOutcome)
    (tus : List ToolUse) (s : LoopState) (tr : List ToolCall)
    (h : dispatchOk call tus = true) :
    appToolLoop call tus s = .ok
      { s with
        msgs := s.msgs ++ tus.map (fun tu => Message.toolResults [⟨tu.id, appResultText call tu⟩]),
        toolTrace := s.toolTrace ++ tus.map (fun tu => (⟨tu.name, tu.input⟩ : ToolCall)) }
    ∧ mcpToolLoop call tus tr []
      = (tr ++ tus.map (fun tu => (⟨tu.name, tu.input⟩ : ToolCall)),
         tus.map (fun tu => (⟨tu.id, clean (appResultText call tu)⟩ : ToolResult))) :=
  ⟨appToolLoop_ok call tus s h, by simpa using mcpToolLoop_ok call tus tr [] h⟩

/-- Witness for C2 at a concrete input: two requests, both succeeding. -/
theorem c2_witness :
    dispatchOk okCall42 [sampleTu1, sampleTu2] = true
    ∧ (appToolLoop okCall42 [sampleTu1, sampleTu2] ⟨[], "", 0, []⟩ = .ok
        { (⟨[], "", 0, []⟩ : LoopState) with
          msgs := (⟨[], "", 0, []⟩ : LoopState).msgs ++ [sampleTu1, sampleTu2].map
            (fun tu => Message.toolResults [⟨tu.id, appResultText okCall42 tu⟩]),
          toolTrace := (⟨[], "", 0, []⟩ : LoopState).toolTrace ++ [sampleTu1, sampleTu2].map
            (fun tu => (⟨tu.name, tu.input⟩ : ToolCall)) }
      ∧ mcpToolLoop okCall42 [sampleTu1, sampleTu2] [] []
        = ([] ++ [sampleTu1, sampleTu2].map (fun tu => (⟨tu.name, tu.input⟩ : ToolCall)),
           [sampleTu1, sampleTu2].map
             (fun tu => (⟨tu.id, clean (appResultText okCall42 tu)⟩ : ToolResult)))) :=
  ⟨by decide,
   c2_dispatch_order_and_matching_ids okCall42 [sampleTu1, sampleTu2] ⟨[], "", 0, []⟩ []
     (by decide)⟩

/-- C8: when the tool-catalog fetch fails, the run fails immediately with
an error string, no model call is attempted, no tool is invoked, and the
messages list is returned exactly as it was (nothing is appended — in
particular nothing beyond the initial user turn). -/
theorem c8_catalog_failure_no_model_call (e : String)
    (call : String → List (String × String) → ToolOutcome)
    (script : List (Option (List ContentItem))) (msgs0 : List Message) (query : String) :
    Chat.process_query ⟨Except.error e, call, script⟩ msgs0 query
      = ("❌ Error during Claude + MCP query: " ++ e, ⟨msgs0, "", 0, []⟩) := rfl

/-- C9: when `sqlite3.connect` raises, query_data does not return an error
string — the `finally` clause evaluates `conn.close()` with `conn` never
assigned, so an UnboundLocalError propagates out of the tool for every
input SQL string, contradicting the never-propagates claim. -/
theorem c9_connect_failure_propagates (e sql : String) (run : String → SqlOutcome) :
    query_data ⟨Except.error e, run⟩ sql
      = Except.error "UnboundLocalError: local variable conn referenced before assignment" := rfl

/-- C10: a POST /chat request with no initialized tool-server session
returns the fallback echo response and makes no model call and no tool
call, leaving the persistent messages untouched. -/
theorem c10_fallback_echo (env : Env) (chatMessages : List Message) (message : String) :
    chat_api env false chatMessages message
      = (⟨"[Fallback] Echo: " ++ message, 0, []⟩, chatMessages) := rfl

/-- C3 counterexample: in app.py a raising tool invocation aborts the run.
With a round requesting one tool whose invocation raises "boom", the run
returns the outer handler's error string and only one model call is ever
made — the loop does not proceed to call the model again, and no
error-text tool result is produced. -/
theorem c3_counterexample :
    (Chat.process_query envRaise [] "q").1 = "❌ Error during Claude + MCP query: boom"
    ∧ (Chat.process_query envRaise [] "q").2.modelCalls = 1
    ∧ (Chat.process_query envRaise [] "q").2.msgs
      = [Message.user "q", Message.assistant [ContentItem.toolUse sampleTu1]] := by
  refine ⟨by decide, by decide, by decide⟩

/-- C3 amended: a raising tool invocation propagates in app.py — the
dispatch loop errors, the round raises (aborting the loop with no further
model call), and the outer handler turns it into an error-string return;
in mcp_client.py the loop continues past the failure, but the failing
tool's result is omitted from the batch rather than converted into an
error-text result. -/
theorem c3_amended_raise_aborts_app_and_is_dropped_by_mcp
    (call : String → List (String × String) → ToolOutcome) (e : String)
    (tu : ToolUse) (restReq : List ToolUse) (s : LoopState)
    (tr : List ToolCall) (res : List ToolResult)
    (items : List ContentItem) (rest2 : List (Option (List ContentItem))) (s2 : LoopState)
    (hraise : call tu.name tu.input = .raise e)
    (hitems : (collectContent items).2 = [tu]) :
    appToolLoop call (tu :: restReq) s
      = .error (e, { s with toolTrace := s.toolTrace ++ [⟨tu.name, tu.input⟩] })
    ∧ appLoop call (some items :: rest2) s2
      = .raised e
          { s2 with
            modelCalls := s2.modelCalls + 1,
            final := accumFinal s2.final (collectContent items).1,
            msgs := s2.msgs ++ [Message.assistant (appAssistantContent items)],
            toolTrace := s2.toolTrace ++ [⟨tu.name, tu.input⟩] }
    ∧ mcpToolLoop call (tu :: restReq) tr res
      = mcpToolLoop call restReq (tr ++ [⟨tu.name, tu.input⟩]) res
    ∧ mcpLoop call (some items :: rest2) s2
      = mcpLoop call rest2
          { s2 with
            modelCalls := s2.modelCalls + 1,
            msgs := s2.msgs ++ [Message.assistant (mcpAssistantContent items),
              Message.toolResults []],
            toolTrace := s2.toolTrace ++ [⟨tu.name, tu.input⟩] } := by
  refine ⟨by simp [appToolLoop, hraise], ?_, by simp [mcpToolLoop, hraise], ?_⟩
  · simp [appLoop, hitems, appToolLoop, hraise]
  · simp [mcpLoop, hitems, mcpToolLoop, hraise]

/-- Witness for the amended C3 at a concrete input: one raising request. -/
theorem c3_witness :
    (raiseCallBoom sampleTu1.name sampleTu1.input = .raise "boom"
      ∧ (collectContent [ContentItem.toolUse sampleTu1]).2 = [sampleTu1])
    ∧ (appToolLoop raiseCallBoom (sampleTu1 :: []) ⟨[], "", 0, []⟩
        = .error ("boom", { (⟨[], "", 0, []⟩ : LoopState) with
            toolTrace := (⟨[], "", 0, []⟩ : LoopState).toolTrace
              ++ [⟨sampleTu1.name, sampleTu1.input⟩] })
      ∧ appLoop raiseCallBoom (some [ContentItem.toolUse sampleTu1] :: []) ⟨[], "", 0, []⟩
        = .raised "boom"
            { (⟨[], "", 0, []⟩ : LoopState) with
              modelCalls := (⟨[], "", 0, []⟩ : LoopState).modelCalls + 1,
              final := accumFinal (⟨[], "", 0, []⟩ : LoopState).final
                (collectContent [ContentItem.toolUse sampleTu1]).1,
              msgs := (⟨[], "", 0, []⟩ : LoopState).msgs
                ++ [Message.assistant (appAssistantContent [ContentItem.toolUse sampleTu1])],
              toolTrace := (⟨[], "", 0, []⟩ : LoopState).toolTrace
                ++ [⟨sampleTu1.name, sampleTu1.input⟩] }
      ∧ mcpToolLoop raiseCallBoom (sampleTu1 :: []) [] []
        = mcpToolLoop raiseCallBoom [] ([] ++ [⟨sampleTu1.name, sampleTu1.input⟩]) []
      ∧ mcpLoop raiseCallBoom (some [ContentItem.toolUse sampleTu1] :: []) ⟨[], "", 0, []⟩
        = mcpLoop raiseCallBoom []
            { (⟨[], "", 0, []⟩ : LoopState) with
              modelCalls := (⟨[], "", 0, []⟩ : LoopState).modelCalls + 1,
              msgs := (⟨[], "", 0, []⟩ : LoopState).msgs
                ++ [Message.assistant (mcpAssistantContent [ContentItem.toolUse sampleTu1]),
                    Message.toolResults []],
              toolTrace := (⟨[], "", 0, []⟩ : LoopState).toolTrace
                ++ [⟨sampleTu1.name, sampleTu1.input⟩] }) :=
  ⟨⟨by decide, by decide⟩,
   c3_amended_raise_aborts_app_and_is_dropped_by_mcp raiseCallBoom "boom" sampleTu1 []
     ⟨[], "", 0, []⟩ [] [] [ContentItem.toolUse sampleTu1] [] ⟨[], "", 0, []⟩
     (by decide) (by decide)⟩

/-- C4 counterexample: for the response [tool_use, text], app.py appends an
assistant turn whose content is [text, tool_use] — the relative order of
Text and ToolInvocationRequest items is not preserved. -/
theorem c4_counterexample :
    appAssistantContent c4Items = [ContentItem.text "hi", ContentItem.toolUse sampleTu1]
    ∧ appAssistantContent c4Items ≠ c4Items := by
  refine ⟨by decide, by decide⟩

/-- C4 amended: mcp_client.py appends the returned items exactly in their
original order; app.py appends the same items but stably partitioned — all
Text items first in their original relative order, then all
ToolInvocationRequest items in their original relative order. Neither
deduplicates. -/
theorem c4_amended_mcp_preserves_app_partitions (items : List ContentItem) :
    mcpAssistantContent items = items
    ∧ appAssistantContent items
      = items.filter ContentItem.isText ++ items.filter (fun i => ! ContentItem.isText i) := by
  constructor
  · induction items with
    | nil => rfl
    | cons i rest ih => cases i <;> simp [mcpAssistantContent, ih]
  · simp only [appAssistantContent, collectContent_fst_filter, collectContent_snd_filter]

/-- C5 counterexample: with two successful tool requests in one round,
app.py appends two separate tool_result turns (one per result), not a
single batch turn holding both results. -/
theorem c5_counterexample :
    (dispatchState (appToolLoop okCall42 [sampleTu1, sampleTu2] ⟨[], "", 0, []⟩)).msgs
      = [Message.toolResults [⟨"t1", "42"⟩], Message.toolResults [⟨"t2", "42"⟩]]
    ∧ (dispatchState (appToolLoop okCall42 [sampleTu1, sampleTu2] ⟨[], "", 0, []⟩)).msgs
      ≠ [Message.toolResults [⟨"t1", "42"⟩, ⟨"t2", "42"⟩]] := by
  refine ⟨by decide, by decide⟩

/-- C5 amended: mcp_client.py appends all of a round's tool results as one
single batch turn (in request order); app.py instead appends one separate
tool_result turn per request, in request order. -/
theorem c5_amended_single_batch_in_mcp_per_result_in_app
    (call : String → List (String × String) → ToolOutcome)
    (tus : List ToolUse) (s : LoopState)
    (items : List ContentItem) (rest : List (Option (List ContentItem))) (s2 : LoopState)
    (h : dispatchOk call tus = true)
    (hitems : (collectContent items).2 = tus) (hne : tus ≠ []) :
    appToolLoop call tus s = .ok
      { s with
        msgs := s.msgs ++ tus.map (fun tu => Message.toolResults [⟨tu.id, appResultText call tu⟩]),
        toolTrace := s.toolTrace ++ tus.map (fun tu => (⟨tu.name, tu.input⟩ : ToolCall)) }
    ∧ mcpLoop call (some items :: rest) s2
      = mcpLoop call rest
          { s2 with
            modelCalls := s2.modelCalls + 1,
            msgs := s2.msgs ++ [Message.assistant (mcpAssistantContent items),
              Message.toolResults (tus.map
                (fun tu => (⟨tu.id, clean (appResultText call tu)⟩ : ToolResult)))],
            toolTrace := s2.toolTrace ++ tus.map (fun tu => (⟨tu.name, tu.input⟩ : ToolCall)) } := by
  refine ⟨appToolLoop_ok call tus s h, ?_⟩
  have hemp : tus.isEmpty = false := by
    cases tus with
    | nil => exact absurd rfl hne
    | cons a l => simp [List.isEmpty]
  simp [mcpLoop, hitems, hemp, mcpToolLoop_ok call tus _ [] h]

/-- Witness for the amended C5 at a concrete input: two successful
requests in one round. -/
theorem c5_witness :
    (dispatchOk okCall42 [sampleTu1, sampleTu2] = true
      ∧ (collectContent [ContentItem.toolUse sampleTu1, ContentItem.toolUse sampleTu2]).2
        = [sampleTu1, sampleTu2]
      ∧ [sampleTu1, sampleTu2] ≠ [])
    ∧ (appToolLoop okCall42 [sampleTu1, sampleTu2] ⟨[], "", 0, []⟩ = .ok
        { (⟨[], "", 0, []⟩ : LoopState) with
          msgs := (⟨[], "", 0, []⟩ : LoopState).msgs ++ [sampleTu1, sampleTu2].map
            (fun tu => Message.toolResults [⟨tu.id, appResultText okCall42 tu⟩]),
          toolTrace := (⟨[], "", 0, []⟩ : LoopState).toolTrace ++ [sampleTu1, sampleTu2].map
            (fun tu => (⟨tu.name, tu.input⟩ : ToolCall)) }
      ∧ mcpLoop okCall42
          (some [ContentItem.toolUse sampleTu1, ContentItem.toolUse sampleTu2] :: [])
          ⟨[], "", 0, []⟩
        = mcpLoop okCall42 []
            { (⟨[], "", 0, []⟩ : LoopState) with
              modelCalls := (⟨[], "", 0, []⟩ : LoopState).modelCalls + 1,
              msgs := (⟨[], "", 0, []⟩ : LoopState).msgs
                ++ [Message.assistant (mcpAssistantContent
                      [ContentItem.toolUse sampleTu1, ContentItem.toolUse sampleTu2]),
                    Message.toolResults ([sampleTu1, sampleTu2].map
                      (fun tu => (⟨tu.id, clean (appResultText okCall42 tu)⟩ : ToolResult)))],
              toolTrace := (⟨[], "", 0, []⟩ : LoopState).toolTrace
                ++ [sampleTu1, sampleTu2].map (fun tu => (⟨tu.name, tu.input⟩ : ToolCall)) }) :=
  ⟨⟨by decide, by decide, by decide⟩,
   c5_amended_single_batch_in_mcp_per_result_in_app okCall42 [sampleTu1, sampleTu2]
     ⟨[], "", 0, []⟩ [ContentItem.toolUse sampleTu1, ContentItem.toolUse sampleTu2] []
     ⟨[], "", 0, []⟩ (by decide) (by decide) (by decide)⟩

/-- C6 counterexample: the transcript is not created empty per request and
is not discarded when a run ends. After serving "q1" and then "q2" through
the module-level chat singleton, the persistent messages still contain the
first request's user turn, and the full state holds the turns of both
requests. -/
theorem c6_counterexample :
    Message.user "q1" ∈ (chat_api envTextOnly true (chat_api envTextOnly true [] "q1").2 "q2").2
    ∧ (chat_api envTextOnly true (chat_api envTextOnly true [] "q1").2 "q2").2
      = [Message.user "q1", Message.assistant [ContentItem.text "a"],
         Message.user "q2", Message.assistant [ContentItem.text "a"]] := by
  refine ⟨by decide, by decide⟩

/-- C6 amended: the transcript lives in the module-level Chat singleton,
created empty once at process start; each request only appends to it
(append-only monotonicity, for every environment and both endpoint
branches), and it is not discarded when the loop terminates, so turns
persist across requests. -/
theorem c6_amended_append_only_and_persistent (env : Env) (hasSession : Bool)
    (chatMessages : List Message) (message : String) :
    ∃ t, (chat_api env hasSession chatMessages message).2 = chatMessages ++ t := by
  cases hasSession with
  | false => exact ⟨[], by simp [chat_api]⟩
  | true =>
      obtain ⟨t, ht⟩ := process_query_msgs_mono env chatMessages message
      exact ⟨t, by simpa [chat_api] using ht⟩

/-- The mcp_client cleaning of the empty string is the empty string. -/
theorem clean_empty : clean "" = "" := by decide

/-- C7 counterexample: a successful tool invocation whose result payload
has no extractable primary text does abort the run in app.py when the
payload's content list is empty: `result.content[0]` raises IndexError,
the outer handler returns an error string, and the loop never reaches the
scripted second round. -/
theorem c7_counterexample :
    (Chat.process_query envEmptyPayload [] "q").1
      = "❌ Error during Claude + MCP query: IndexError: list index out of range"
    ∧ (Chat.process_query envEmptyPayload [] "q").2.modelCalls = 1 := by
  refine ⟨by decide, by decide⟩

/-- C7 amended: when the first content item of a successful result exists
but has no text attribute, both dispatchers substitute the empty string
and continue; but when the result payload's content list is empty, the
index access raises — app.py propagates the IndexError (aborting the
round), while mcp_client.py drops that tool's result and continues. -/
theorem c7_amended_empty_string_only_when_first_item_exists
    (call call2 : String → List (String × String) → ToolOutcome)
    (tu tu2 : ToolUse) (s s2 : LoopState)
    (tr tr2 : List ToolCall) (res res2 : List ToolResult)
    (item : ToolPayloadItem) (restItems : List ToolPayloadItem)
    (hok : call tu.name tu.input = .ok ⟨item :: restItems⟩)
    (hnotext : item.text? = none)
    (hempty : call2 tu2.name tu2.input = .ok ⟨[]⟩) :
    appToolLoop call (tu :: []) s = .ok
      { s with
        msgs := s.msgs ++ [Message.toolResults [⟨tu.id, ""⟩]],
        toolTrace := s.toolTrace ++ [⟨tu.name, tu.input⟩] }
    ∧ mcpToolLoop call (tu :: []) tr res
      = (tr ++ [⟨tu.name, tu.input⟩], res ++ [⟨tu.id, ""⟩])
    ∧ appToolLoop call2 (tu2 :: []) s2
      = .error ("IndexError: list index out of range",
          { s2 with toolTrace := s2.toolTrace ++ [⟨tu2.name, tu2.input⟩] })
    ∧ mcpToolLoop call2 (tu2 :: []) tr2 res2 = (tr2 ++ [⟨tu2.name, tu2.input⟩], res2) := by
  refine ⟨?_, ?_, by simp [appToolLoop, hempty], by simp [mcpToolLoop, hempty]⟩
  · simp [appToolLoop, hok, hnotext]
  · simp [mcpToolLoop, hok, hnotext, clean_empty]

/-- Witness for the amended C7 at concrete inputs: one request whose
result item lacks text, and one request whose result payload is empty. -/
theorem c7_witness :
    (noTextCall sampleTu1.name sampleTu1.input = .ok ⟨[⟨none⟩]⟩
      ∧ (⟨none⟩ : ToolPayloadItem).text? = none
      ∧ emptyPayloadCall sampleTu2.name sampleTu2.input = .ok ⟨[]⟩)
    ∧ (appToolLoop noTextCall (sampleTu1 :: []) ⟨[], "", 0, []⟩ = .ok
        { (⟨[], "", 0, []⟩ : LoopState) with
          msgs := (⟨[], "", 0, []⟩ : LoopState).msgs
            ++ [Message.toolResults [⟨sampleTu1.id, ""⟩]],
          toolTrace := (⟨[], "", 0, []⟩ : LoopState).toolTrace
            ++ [⟨sampleTu1.name, sampleTu1.input⟩] }
      ∧ mcpToolLoop noTextCall (sampleTu1 :: []) [] []
        = ([] ++ [⟨sampleTu1.name, sampleTu1.input⟩], [] ++ [⟨sampleTu1.id, ""⟩])
      ∧ appToolLoop emptyPayloadCall (sampleTu2 :: []) ⟨[], "", 0, []⟩
        = .error ("IndexError: list index out of range",
            { (⟨[], "", 0, []⟩ : LoopState) with
              toolTrace := (⟨[], "", 0, []⟩ : LoopState).toolTrace
                ++ [⟨sampleTu2.name, sampleTu2.input⟩] })
      ∧ mcpToolLoop emptyPayloadCall (sampleTu2 :: []) [] []
        = ([] ++ [⟨sampleTu2.name, sampleTu2.input⟩], [])) :=
  ⟨⟨by decide, by decide, by decide⟩,
   c7_amended_empty_string_only_when_first_item_exists noTextCall emptyPayloadCall
     sampleTu1 sampleTu2 ⟨[], "", 0, []⟩ ⟨[], "", 0, []⟩ [] [] [] [] ⟨none⟩ []
     (by decide) (by decide) (by decide)⟩

end McpSqlite
